import Mathlib

/-!
# Verification of the openephys-to-dh event and continuous-data pipelines

Shallow embedding of the repository's three source files:

* `src/openephys_to_dh/events.py` — event loading, normalisation and the
  trigger-stream merge pipeline;
* `openephys_to_dh/dh_from_oe_recording.py` — continuous-stream block
  numbering (CONT group addressing);
* `tests/test_decimation.py` — the decimation shape contract (the
  implementation `oecon.decimation.decimate_np_array` is not part of the
  sources, so it is modelled from the specification).

Machine arrays of integers are modelled as `List ℤ`, timestamps in seconds
(floating point in the source) as `List ℚ`, and numpy's `np.nan` sentinel in
`np.diff(..., prepend=np.nan)` as `Option ℤ` with `none` for NaN (NaN
compares unequal to 0, exactly as `none ≠ some 0`).
-/

/-- Embeds the `EventMetadata` dataclass of `events.py`.  The Python field
`type` is renamed `evType` because `type` is reserved in Lean; all other
field names follow the source. -/
structure EventMetadata where
  channel_name : String
  folder_name : String
  identifier : String
  sample_rate : ℚ
  stream_name : String
  evType : String
  description : String
  source_processor : String
  initial_state : ℤ
deriving DecidableEq, Repr

/-- Embeds the `Event` dataclass of `events.py`: parallel arrays
`full_words`, `timestamps` (seconds), `states`, `sample_numbers`. -/
structure Event where
  metadata : EventMetadata
  full_words : List ℤ
  timestamps : List ℚ
  states : List ℤ
  sample_numbers : List ℤ
deriving DecidableEq, Repr

/-- Embeds `Event.__init__` (`events.py` lines 84–95): the explicit
constructor asserts that all four parallel arrays have the same length
before producing the object.  The Python `AssertionError` is modelled as
`Except.error`. -/
def eventInit (metadata : EventMetadata) (full_words : List ℤ)
    (timestamps : List ℚ) (states : List ℤ) (sample_numbers : List ℤ) :
    Except String Event :=
  if full_words.length = timestamps.length ∧
      timestamps.length = states.length ∧
      states.length = sample_numbers.length then
    .ok ⟨metadata, full_words, timestamps, states, sample_numbers⟩
  else
    .error "Length mismatch"

/-- Embeds the `FullWordEvent` dataclass of `events.py` (lines 109–120):
parallel arrays `full_words`, `timestamps`, `sample_numbers`. -/
structure FullWordEvent where
  metadata : EventMetadata
  full_words : List ℤ
  timestamps : List ℚ
  sample_numbers : List ℤ
deriving DecidableEq, Repr

/-- Embeds construction of a `FullWordEvent`.  The dataclass declares no
custom `__init__`, so the generated constructor only assigns the fields and
performs no length validation: construction always succeeds. -/
def fullWordEventInit (metadata : EventMetadata) (full_words : List ℤ)
    (timestamps : List ℚ) (sample_numbers : List ℤ) :
    Except String FullWordEvent :=
  .ok ⟨metadata, full_words, timestamps, sample_numbers⟩

/-- Embeds `FullWordEvent.__len__` (`events.py` lines 116–120), which is the
only place the length invariant of `FullWordEvent` is asserted. -/
def fullWordEventLen (e : FullWordEvent) : Except String ℕ :=
  if e.full_words.length = e.timestamps.length ∧
      e.timestamps.length = e.sample_numbers.length then
    .ok e.full_words.length
  else
    .error "Length mismatch"

/-- Embeds `np.diff(words, prepend=np.nan)` on an integer array: the result
has the same length as `words`; entry 0 is `words[0] - nan = nan` (modelled
`none`) and entry `i ≥ 1` is `some (words[i] - words[i-1])`. -/
def npDiffPrependNan (words : List ℤ) : List (Option ℤ) :=
  match words with
  | [] => []
  | _ :: tl => none :: (words.zip tl).map (fun p => some (p.2 - p.1))

/-- Embeds `np.where(np.diff(event.full_words, prepend=np.nan) != 0)[0]`
(`events.py` line 134): the indices whose diff entry is not 0 (a NaN entry
compares unequal to 0 and is therefore kept). -/
def uniqueIndices (words : List ℤ) : List ℕ :=
  (((npDiffPrependNan words).enum).filter (fun p => p.2 ≠ some 0)).map Prod.fst

/-- Embeds numpy fancy indexing `xs[indices]` for an in-range index list. -/
def selectIndices (xs : List α) (idxs : List ℕ) : List α :=
  idxs.filterMap (fun i => xs[i]?)

/-- Embeds `remove_repeating_simultaneous_words` (`events.py` lines
123–141): select the indices where the full word changed in `full_words`,
`timestamps` and `sample_numbers`, dropping `states`. -/
def removeRepeatingSimultaneousWords (event : Event) : FullWordEvent :=
  let idxs := uniqueIndices event.full_words
  { metadata := event.metadata
    full_words := selectIndices event.full_words idxs
    timestamps := selectIndices event.timestamps idxs
    sample_numbers := selectIndices event.sample_numbers idxs }

/-! ## Lemmas about the full-word de-duplication normalizer -/

lemma mem_uniqueIndices_iff_diff (words : List ℤ) (i : ℕ) :
    i ∈ uniqueIndices words ↔
      ∃ v, (npDiffPrependNan words)[i]? = some v ∧ v ≠ some 0 := by
  simp only [uniqueIndices, List.mem_map, List.mem_filter]
  constructor
  · rintro ⟨⟨j, v⟩, ⟨hmem, hne⟩, rfl⟩
    exact ⟨v, List.mk_mem_enum_iff_getElem?.mp hmem, by simpa using hne⟩
  · rintro ⟨v, hget, hne⟩
    exact ⟨(i, v), ⟨List.mk_mem_enum_iff_getElem?.mpr hget, by simpa using hne⟩, rfl⟩

lemma npDiff_getElem_succ : ∀ (words : List ℤ) (j : ℕ),
    (npDiffPrependNan words)[j + 1]? =
      (words[j + 1]?).bind (fun y => (words[j]?).map (fun p => some (y - p)))
  | [], _ => by simp [npDiffPrependNan]
  | [_], _ => by simp [npDiffPrependNan]
  | _ :: _ :: _, 0 => by simp [npDiffPrependNan]
  | w :: x :: tl, (k + 1) => by
    have ih := npDiff_getElem_succ (x :: tl) k
    simp only [npDiffPrependNan, List.zip_cons_cons, List.map_cons,
      List.getElem?_cons_succ] at ih ⊢
    exact ih

lemma mem_uniqueIndices (words : List ℤ) (i : ℕ) :
    i ∈ uniqueIndices words ↔
      i < words.length ∧ (i = 0 ∨ words[i]? ≠ words[i - 1]?) := by
  rw [mem_uniqueIndices_iff_diff]
  cases i with
  | zero =>
    cases words with
    | nil => simp [npDiffPrependNan]
    | cons w ws => simp [npDiffPrependNan]
  | succ j =>
    rw [npDiff_getElem_succ]
    cases hy : words[j + 1]? with
    | none =>
      have hlen : ¬ j + 1 < words.length := by
        simpa [List.getElem?_eq_none_iff] using hy
      simp [hy, hlen]
    | some y =>
      have hlen : j + 1 < words.length := by
        by_contra hc
        simp [List.getElem?_eq_none_iff.mpr (Nat.le_of_not_lt hc)] at hy
      obtain ⟨p, hp⟩ : ∃ p, words[j]? = some p := by
        have hj : j < words.length := Nat.lt_of_succ_lt hlen
        exact ⟨words[j], List.getElem?_eq_some_iff.mpr ⟨hj, rfl⟩⟩
      simp [hy, hp, hlen, sub_eq_zero]

/-- Metadata of a "Network Events" full-word source, used in concrete
examples below. -/
def exNetMeta : EventMetadata :=
  { channel_name := "ch"
    folder_name := "Network_Events"
    identifier := "net"
    sample_rate := 30000
    stream_name := "messages"
    evType := "int16"
    description := ""
    source_processor := "Network Events"
    initial_state := 0 }

/-- An `Event` whose full words are the spec's example `[5,5,5,7,7,2]`. -/
def exWordsEvent : Event :=
  { metadata := exNetMeta
    full_words := [5, 5, 5, 7, 7, 2]
    timestamps := [0, 1, 2, 3, 4, 5]
    states := [0, 0, 0, 0, 0, 0]
    sample_numbers := [10, 11, 12, 13, 14, 15] }

/-- **C1.** `remove_repeating_simultaneous_words` keeps exactly the samples
whose full word differs from the immediately preceding sample's word, with
the very first sample always kept; on words `[5,5,5,7,7,2]` it keeps exactly
indices `[0,3,5]` (values `[5,7,2]`, with the matching timestamps and sample
numbers selected), and a single-element input is always kept. -/
theorem events_C1_dedup_keeps_changes :
    (∀ (words : List ℤ) (i : ℕ),
        i ∈ uniqueIndices words ↔
          i < words.length ∧ (i = 0 ∨ words[i]? ≠ words[i - 1]?))
    ∧ uniqueIndices [5, 5, 5, 7, 7, 2] = [0, 3, 5]
    ∧ (removeRepeatingSimultaneousWords exWordsEvent).full_words = [5, 7, 2]
    ∧ (removeRepeatingSimultaneousWords exWordsEvent).timestamps = [0, 3, 5]
    ∧ (removeRepeatingSimultaneousWords exWordsEvent).sample_numbers = [10, 13, 15]
    ∧ (∀ (md : EventMetadata) (w s n : ℤ) (t : ℚ),
        (removeRepeatingSimultaneousWords ⟨md, [w], [t], [s], [n]⟩).full_words
          = [w]) := by
  refine ⟨mem_uniqueIndices, by decide, by decide, by decide, by decide, ?_⟩
  intro md w s n t
  simp [removeRepeatingSimultaneousWords, uniqueIndices, npDiffPrependNan,
    selectIndices]

/-! ## The event merge pipeline of `process_oe_events` -/

/-- Embeds `np.round` on a scalar: round to nearest, halves to even
(IEEE-754 / numpy banker's rounding). -/
def roundHalfEven (q : ℚ) : ℤ :=
  let f := ⌊q⌋
  let r := q - f
  if r < 1 / 2 then f
  else if 1 / 2 < r then f + 1
  else if f % 2 = 0 then f else f + 1

/-- Embeds `np.int64(np.round(timestamps * 1e9))` (`events.py` lines 204–205
and 219–221): seconds to integer nanoseconds, round to nearest. -/
def nsOfSeconds (t : ℚ) : ℤ := roundHalfEven (t * 1000000000)

lemma nsOfSeconds_eval (t : ℚ) (n : ℤ) (h : t * 1000000000 = (n : ℚ)) :
    nsOfSeconds t = n := by
  unfold nsOfSeconds roundHalfEven
  rw [h]
  simp only [Int.floor_intCast, sub_self]
  norm_num

/-- The primary (EV02 / NI-DAQmx) contribution to the trigger stream
(`events.py` lines 197–207): timestamps converted to nanoseconds, codes
taken from `states` with **no** offset. -/
def primaryContribution (e : Event) : List (ℤ × ℤ) :=
  (e.timestamps.map nsOfSeconds).zip e.states

/-- The marker ("Network Events") contribution (`events.py` lines 211–224):
timestamps converted to nanoseconds, codes are `full_words` plus the
configured `network_events_offset`. -/
def markerContribution (f : FullWordEvent) (offset : ℤ) : List (ℤ × ℤ) :=
  (f.timestamps.map nsOfSeconds).zip (f.full_words.map (fun w => w + offset))

/-- Embeds the `np.argsort` step (`events.py` lines 226–229): the parallel
timestamp/code arrays are reordered by ascending timestamp.  The parallel
arrays (equal length by the `Event` construction invariant) are modelled as
a single list of pairs sorted by the timestamp component. -/
def sortPairs (l : List (ℤ × ℤ)) : List (ℤ × ℤ) :=
  l.insertionSort (fun a b => a.1 ≤ b.1)

/-- Embeds the trigger-merge core of `process_oe_events` (`events.py` lines
190–229): an absent source contributes nothing; the primary contribution is
concatenated with the offset marker contribution and the result is sorted by
timestamp only at this final step. -/
def buildTriggerStream (primary : Option Event) (marker : Option FullWordEvent)
    (offset : ℤ) : List (ℤ × ℤ) :=
  let p := match primary with
    | none => []
    | some e => primaryContribution e
  let m := match marker with
    | none => []
    | some f => markerContribution f offset
  sortPairs (p ++ m)

/-- Embeds the asserted post-condition `all(np.diff(timestamps_ns) >= 0)`
(`events.py` line 231). -/
def allDiffNonneg : List ℤ → Bool
  | [] => true
  | [_] => true
  | a :: b :: rest => (a ≤ b) && allDiffNonneg (b :: rest)

instance : IsTotal (ℤ × ℤ) (fun a b => a.1 ≤ b.1) :=
  ⟨fun a b => le_total a.1 b.1⟩

instance : IsTrans (ℤ × ℤ) (fun a b => a.1 ≤ b.1) :=
  ⟨fun _ _ _ => le_trans⟩

lemma sortPairs_sorted (l : List (ℤ × ℤ)) :
    List.Sorted (fun a b : ℤ × ℤ => a.1 ≤ b.1) (sortPairs l) :=
  List.sorted_insertionSort _ l

lemma sortPairs_perm (l : List (ℤ × ℤ)) : (sortPairs l).Perm l :=
  List.perm_insertionSort _ l

lemma allDiffNonneg_of_sorted :
    ∀ (l : List ℤ), List.Sorted (· ≤ ·) l → allDiffNonneg l = true
  | [], _ => rfl
  | [_], _ => rfl
  | a :: b :: rest, h => by
    rw [List.sorted_cons] at h
    simp only [allDiffNonneg, Bool.and_eq_true, decide_eq_true_eq]
    exact ⟨h.1 b (by simp), allDiffNonneg_of_sorted (b :: rest) h.2⟩

/-- **C2.** For every pair of (possibly absent) primary and marker sources
with arbitrary, possibly unsorted timestamps, the merged trigger stream has
non-decreasing timestamps, so the asserted post-condition
`all(np.diff(timestamps_ns) >= 0)` evaluates to true on every input: the
assertion's failure branch is unreachable. -/
theorem events_C2_merge_monotonic
    (primary : Option Event) (marker : Option FullWordEvent) (offset : ℤ) :
    allDiffNonneg ((buildTriggerStream primary marker offset).map Prod.fst)
      = true := by
  apply allDiffNonneg_of_sorted
  exact (sortPairs_sorted _).map Prod.fst (fun _ _ h => h)

/-- Metadata of the primary NI-DAQmx / PXIe-6341 trigger source, used in the
concrete merge scenario. -/
def exPrimaryMeta : EventMetadata :=
  { channel_name := "DI0"
    folder_name := "NI-DAQmx-107.PXIe-6341"
    identifier := "daq"
    sample_rate := 30000
    stream_name := "PXIe-6341"
    evType := "int16"
    description := ""
    source_processor := "NI-DAQmx"
    initial_state := 0 }

/-- The spec scenario's primary source: timestamps `[0.002, 0.001]` seconds
with state codes `[3, 4]`. -/
def exPrimary : Event :=
  { metadata := exPrimaryMeta
    full_words := [0, 0]
    timestamps := [2 / 1000, 1 / 1000]
    states := [3, 4]
    sample_numbers := [60, 30] }

/-- The spec scenario's marker source: timestamp `[0.0015]` seconds with
full word `[1]`. -/
def exMarker : FullWordEvent :=
  { metadata := exNetMeta
    full_words := [1]
    timestamps := [15 / 10000]
    sample_numbers := [45] }

lemma buildTriggerStream_example :
    buildTriggerStream (some exPrimary) (some exMarker) 100
      = [(1000000, 4), (1500000, 101), (2000000, 3)] := by
  have h1 : nsOfSeconds (2 / 1000) = 2000000 := nsOfSeconds_eval _ _ (by norm_num)
  have h2 : nsOfSeconds (1 / 1000) = 1000000 := nsOfSeconds_eval _ _ (by norm_num)
  have h3 : nsOfSeconds (15 / 10000) = 1500000 := nsOfSeconds_eval _ _ (by norm_num)
  show sortPairs (primaryContribution exPrimary ++ markerContribution exMarker 100)
    = _
  simp only [primaryContribution, markerContribution, exPrimary, exMarker,
    List.map_cons, List.map_nil, h1, h2, h3]
  decide

/-- **C3 counterexample.** On the spec scenario (primary `[0.002, 0.001]` s
with codes `[3,4]`, marker `[0.0015]` s with code `[1]`, offset `100`) the
merged timestamps are *not* `[1000, 1500, 2000]` nanoseconds as the claim
states: `0.002 s = 2000000 ns`, a factor 1000 larger. -/
theorem events_C3_cex :
    (buildTriggerStream (some exPrimary) (some exMarker) 100).map Prod.fst
      ≠ [1000, 1500, 2000] := by
  rw [buildTriggerStream_example]
  decide

/-- **C3 (amended).** The merge applies the configured offset to every
marker code and to no primary code, converts seconds to nanoseconds by
round-to-nearest, and sorts only at the final merge step (the output is a
permutation of the unsorted concatenation of the two converted
contributions); on the spec scenario the merged stream is timestamps (ns)
`[1000000, 1500000, 2000000]` with codes `[4, 101, 3]`. -/
theorem events_C3_amended :
    (∀ (e : Event) (f : FullWordEvent) (offset : ℤ),
        (buildTriggerStream (some e) (some f) offset).Perm
          (primaryContribution e ++ markerContribution f offset))
    ∧ buildTriggerStream (some exPrimary) (some exMarker) 100
        = [(1000000, 4), (1500000, 101), (2000000, 3)] :=
  ⟨fun _ _ _ => sortPairs_perm _, buildTriggerStream_example⟩

/-! ## Event-code name annotations (`process_oe_events`, lines 238–256) -/

/-- Embeds the attribute-writing epilogue of `process_oe_events`
(`events.py` lines 238–256): if `ttl_line_names` is configured, every
`(name, code)` entry is written as `(name, code + network_events_offset)`;
if a marker source is present and `network_events_code_name_map` is
configured, its entries are written the same way.  The written attribute
list is returned in writing order. -/
def writtenCodeAttrs (ttl_line_names : Option (List (String × ℤ)))
    (network_events_code_name_map : Option (List (String × ℤ)))
    (markerPresent : Bool) (network_events_offset : ℤ) : List (String × ℤ) :=
  (match ttl_line_names with
    | none => []
    | some l => l.map (fun p => (p.1, p.2 + network_events_offset)))
  ++ (if markerPresent then
        match network_events_code_name_map with
        | none => []
        | some l => l.map (fun p => (p.1, p.2 + network_events_offset))
      else [])

/-- **C7 counterexample.** A fixed trigger-line name naming primary code `3`
(which itself receives no offset) is written as code `3 + 100 = 103`, not
unshifted as the claim states: the code shifts `ttl_line_names` by the
network-events offset as well. -/
theorem events_C7_cex :
    writtenCodeAttrs (some [("lineA", 3)]) none false 100 ≠ [("lineA", 3)]
      ∧ writtenCodeAttrs (some [("lineA", 3)]) none false 100
          = [("lineA", 103)] := by
  constructor <;> decide

/-- **C7 (amended).** Every configured name annotation — the marker/network
code names *and* the fixed trigger-line names — is written shifted by the
configured network-events offset; in particular the fixed trigger-line
names are shifted even though the primary-source codes they name are not. -/
theorem events_C7_amended (ttl netMap : List (String × ℤ))
    (markerPresent : Bool) (offset : ℤ) (n : String) (c : ℤ) :
    ((n, c) ∈ ttl →
      (n, c + offset) ∈ writtenCodeAttrs (some ttl) (some netMap) markerPresent offset)
    ∧ (markerPresent = true → (n, c) ∈ netMap →
      (n, c + offset) ∈ writtenCodeAttrs (some ttl) (some netMap) markerPresent offset) := by
  constructor
  · intro h
    apply List.mem_append_left
    exact List.mem_map.mpr ⟨(n, c), h, rfl⟩
  · intro hp h
    apply List.mem_append_right
    rw [hp]
    simp only [if_true]
    exact List.mem_map.mpr ⟨(n, c), h, rfl⟩

/-- Witness for `events_C7_amended` at a concrete configuration. -/
theorem events_C7_witness :
    ("lineA", (3 : ℤ) + 100)
        ∈ writtenCodeAttrs (some [("lineA", 3)]) (some [("stim", 7)]) true 100
    ∧ ("stim", (7 : ℤ) + 100)
        ∈ writtenCodeAttrs (some [("lineA", 3)]) (some [("stim", 7)]) true 100 :=
  ⟨(events_C7_amended [("lineA", 3)] [("stim", 7)] true 100 "lineA" 3).1
      (by decide),
   (events_C7_amended [("lineA", 3)] [("stim", 7)] true 100 "stim" 7).2
      rfl (by decide)⟩

/-! ## Construction-time length invariants (C9) -/

/-- **C9 counterexample.** Constructing a `FullWordEvent` with mismatched
parallel-array lengths (2 full words, 1 timestamp, 1 sample number)
*succeeds* — the dataclass has no construction-time check — and the
mismatch is only detected when `__len__` is invoked. -/
theorem events_C9_cex :
    fullWordEventInit exNetMeta [1, 2] [0] [7]
        = .ok ⟨exNetMeta, [1, 2], [0], [7]⟩
    ∧ ([1, 2] : List ℤ).length ≠ ([0] : List ℚ).length
    ∧ fullWordEventLen ⟨exNetMeta, [1, 2], [0], [7]⟩
        = .error "Length mismatch" := by
  refine ⟨rfl, by decide, ?_⟩
  simp [fullWordEventLen]

/-- **C9 (amended).** `Event` checks the equal-length invariant of its
parallel arrays at construction time (its explicit `__init__` asserts it);
`FullWordEvent` performs no construction-time check — its generated
constructor always succeeds and the invariant is only asserted when
`__len__` is called. -/
theorem events_C9_amended :
    (∀ (md : EventMetadata) (fw : List ℤ) (ts : List ℚ) (st sn : List ℤ),
        (∃ e, eventInit md fw ts st sn = .ok e) ↔
          (fw.length = ts.length ∧ ts.length = st.length ∧
            st.length = sn.length))
    ∧ (∀ (md : EventMetadata) (fw : List ℤ) (ts : List ℚ) (sn : List ℤ),
        ∃ f, fullWordEventInit md fw ts sn = .ok f)
    ∧ (∀ (f : FullWordEvent),
        (∃ n, fullWordEventLen f = .ok n) ↔
          (f.full_words.length = f.timestamps.length ∧
            f.timestamps.length = f.sample_numbers.length)) := by
  refine ⟨?_, ?_, ?_⟩
  · intro md fw ts st sn
    by_cases h : fw.length = ts.length ∧ ts.length = st.length ∧
        st.length = sn.length
    · simp [eventInit, h]
    · simp [eventInit, h]
  · intro md fw ts sn
    exact ⟨_, rfl⟩
  · intro f
    by_cases h : f.full_words.length = f.timestamps.length ∧
        f.timestamps.length = f.sample_numbers.length
    · simp [fullWordEventLen, h]
    · simp [fullWordEventLen, h]

/-! ## Source discovery (`find_ev02_source`, `find_marker_source`) -/

/-- Embeds `find_ev02_source` (`events.py` lines 173–180): return the first
declared event source with processor "NI-DAQmx" and stream "PXIe-6341", or
`None`. -/
def findEv02Source : List EventMetadata → Option EventMetadata
  | [] => none
  | e :: rest =>
    if e.source_processor = "NI-DAQmx" ∧ e.stream_name = "PXIe-6341" then
      some e
    else
      findEv02Source rest

/-- Embeds `find_marker_source` (`events.py` lines 183–187): return the
first declared event source with processor "Network Events" (implicit
`None` when the loop finds none). -/
def findMarkerSource : List EventMetadata → Option EventMetadata
  | [] => none
  | e :: rest =>
    if e.source_processor = "Network Events" then
      some e
    else
      findMarkerSource rest

/-- Embeds the diagnostics of the `event_from_eventfolder` dispatch
(`events.py` lines 156–170): only an unrecognized processor identity emits
a warning; the three recognized identities emit none. -/
def loaderWarnings (source_processor : String) : List String :=
  if source_processor = "Network Events" ∨ source_processor = "Message Center"
      ∨ source_processor = "NI-DAQmx" then
    []
  else
    ["Unsupported source processor: " ++ source_processor
      ++ ". Attempting generic Event loading..."]

/-- **C10.** When more than one source matches the primary-trigger criteria
or more than one "Network Events" marker source is declared, each finder
returns exactly the first declared match, whatever follows it in the list
(in particular later duplicate matches are ignored); the finders return
plainly (no error path exists) and loading the recognized processors
emits no warning. -/
theorem events_C10_first_match_wins (e f : EventMetadata)
    (rest : List EventMetadata) :
    (e.source_processor = "NI-DAQmx" → e.stream_name = "PXIe-6341" →
        findEv02Source (e :: rest) = some e)
    ∧ (f.source_processor = "Network Events" →
        findMarkerSource (f :: rest) = some f)
    ∧ loaderWarnings "NI-DAQmx" = []
    ∧ loaderWarnings "Network Events" = [] := by
  refine ⟨?_, ?_, by decide, by decide⟩
  · intro h1 h2
    simp [findEv02Source, h1, h2]
  · intro h1
    simp [findMarkerSource, h1]

/-- A second NI-DAQmx/PXIe-6341 source, duplicating `exPrimaryMeta`'s
role. -/
def exPrimaryMetaDup : EventMetadata :=
  { exPrimaryMeta with folder_name := "NI-DAQmx-108.PXIe-6341" }

/-- A second "Network Events" source, duplicating `exNetMeta`'s role. -/
def exNetMetaDup : EventMetadata :=
  { exNetMeta with folder_name := "Network_Events_2" }

/-- Witness for `events_C10_first_match_wins`: with two duplicate matches
for each role, the first declared one is returned. -/
theorem events_C10_witness :
    findEv02Source [exPrimaryMeta, exPrimaryMetaDup] = some exPrimaryMeta
    ∧ findMarkerSource [exNetMeta, exNetMetaDup] = some exNetMeta :=
  ⟨(events_C10_first_match_wins exPrimaryMeta exNetMeta [exPrimaryMetaDup]).1
      rfl rfl,
   (events_C10_first_match_wins exPrimaryMeta exNetMeta [exNetMetaDup]).2.1
      rfl⟩

/-! ## Continuous-stream block numbering (`dh_from_oe_recording.py`) -/

/-- Embeds the `ContGroups` IntEnum (`dh_from_oe_recording.py` lines
12–17). -/
inductive ContGroups
  | RAW
  | ANALOG
  | LFP
  | ESA
  | AP
deriving DecidableEq, Repr

/-- Embeds `CONT_GROUP_RANGES` (lines 21–30): the inclusive identifier
range reserved for each group. -/
def contGroupRanges : ContGroups → ℤ × ℤ
  | .RAW => (1, 1600)
  | .ANALOG => (1601, 2000)
  | .LFP => (2001, 4000)
  | .ESA => (4001, 6000)
  | .AP => (6001, 8000)

/-- Embeds `OE_PROCESSOR_CONT_GROUP_MAP.get(stream_name)` (lines 32–37):
every recognized stream name maps to the RAW group; anything else is
`None`. -/
def oeProcessorContGroupMap (stream_name : String) : Option ContGroups :=
  if stream_name = "PXIe-6341" then some .RAW
  else if stream_name = "PCIe-6341" then some .RAW
  else if stream_name = "example_data" then some .RAW
  else if stream_name = "Neuropix-PXI" then some .RAW
  else none

/-- One continuous stream as consumed by `dh_from_oe_recording`:
`stream_name` from the metadata, the channel-name list iterated by
`create_cont_group_per_channel`, and `numChannels = cont.samples.shape[1]`
used to advance `global_channel_index`. -/
structure OEContinuous where
  stream_name : String
  channel_names : List String
  numChannels : ℕ
deriving DecidableEq, Repr

/-- The fatal error outcomes of `dh_from_oe_recording`: the
assert/ValueError for absent or empty continuous data (lines 46–53) and the
ValueError for an unrecognized stream name (lines 74–78). -/
inductive ConvError
  | noContinuousData
  | unknownStreamName (name : String)
deriving DecidableEq, Repr

/-- Embeds the per-stream loop of `dh_from_oe_recording` (lines 64–98),
returning the CONT block identifiers written, in writing order.  For each
stream: look up its group from the stream name (unknown name → fatal
error), set `start_cont_id = global_channel_index + range_start`, then in
split mode write one block per channel name with identifiers
`start_cont_id + channel_index` (as `create_cont_group_per_channel`, lines
113–148, does) and advance `global_channel_index` by `numChannels`; in
non-split mode write a single block `start_cont_id` and leave
`global_channel_index` unchanged. -/
def writeContStreams (split : Bool) (global_channel_index : ℕ) :
    List OEContinuous → Except ConvError (List ℤ)
  | [] => .ok []
  | c :: rest =>
    match oeProcessorContGroupMap c.stream_name with
    | none => .error (.unknownStreamName c.stream_name)
    | some g =>
      let start_cont_id : ℤ :=
        (global_channel_index : ℤ) + (contGroupRanges g).1
      let ids : List ℤ :=
        if split then
          (List.range c.channel_names.length).map
            (fun j => start_cont_id + (j : ℤ))
        else [start_cont_id]
      match writeContStreams split
          (if split then global_channel_index + c.numChannels
           else global_channel_index) rest with
      | .error e => .error e
      | .ok more => .ok (ids ++ more)

/-- Embeds `dh_from_oe_recording` (lines 40–98): `continuous = none` models
`recording.continuous is None` (AssertionError) and `some []` models the
empty collection (ValueError); both abort before any channel processing.
Otherwise the streams are processed starting from
`global_channel_index = 0`. -/
def dhFromOeRecording (continuous : Option (List OEContinuous))
    (split_channels_into_cont_blocks : Bool) : Except ConvError (List ℤ) :=
  match continuous with
  | none => .error .noContinuousData
  | some conts =>
    if conts.length = 0 then .error .noContinuousData
    else writeContStreams split_channels_into_cont_blocks 0 conts

/-- Total number of channels declared by the streams of `conts` whose
stream name maps to group `g`: the 0-based ordinal base of the next
channel of that category. -/
def channelCountOfCat (g : ContGroups) (conts : List OEContinuous) : ℕ :=
  ((conts.filter (fun c => oeProcessorContGroupMap c.stream_name = some g)).map
    (fun c => c.channel_names.length)).sum

/-- The block identifiers the claim predicts: for each stream (category
`g` from its stream name), channel `j` gets
`range_start g + (channels of category g seen so far) + j`.  The first
argument accumulates the already-processed streams. -/
def catExpectedIdsFrom (pre : List OEContinuous) :
    List OEContinuous → List ℤ
  | [] => []
  | c :: rest =>
    (match oeProcessorContGroupMap c.stream_name with
      | none => []
      | some g =>
        (List.range c.channel_names.length).map
          (fun j => (contGroupRanges g).1 + (channelCountOfCat g pre : ℤ) + (j : ℤ)))
    ++ catExpectedIdsFrom (pre ++ [c]) rest

lemma recognized_eq_raw (s : String) :
    (oeProcessorContGroupMap s).isSome → oeProcessorContGroupMap s = some .RAW := by
  unfold oeProcessorContGroupMap
  split_ifs <;> simp

lemma channelCountOfCat_append (g : ContGroups) (pre : List OEContinuous)
    (c : OEContinuous) :
    channelCountOfCat g (pre ++ [c]) =
      channelCountOfCat g pre +
        (if oeProcessorContGroupMap c.stream_name = some g then
          c.channel_names.length else 0) := by
  simp only [channelCountOfCat, List.filter_append, List.map_append,
    List.sum_append]
  split_ifs with h <;> simp [List.filter_cons, h]

lemma writeContStreams_split_spec :
    ∀ (conts pre : List OEContinuous) (gci : ℕ),
    (∀ c ∈ conts, (oeProcessorContGroupMap c.stream_name).isSome) →
    (∀ c ∈ conts, c.numChannels = c.channel_names.length) →
    gci = channelCountOfCat .RAW pre →
    writeContStreams true gci conts = .ok (catExpectedIdsFrom pre conts)
  | [], pre, gci, _, _, _ => by simp [writeContStreams, catExpectedIdsFrom]
  | c :: rest, pre, gci, hrec, hsh, hg => by
    have hc : oeProcessorContGroupMap c.stream_name = some .RAW :=
      recognized_eq_raw _ (hrec c (by simp))
    have hrec1 : ∀ x ∈ rest, (oeProcessorContGroupMap x.stream_name).isSome :=
      fun x hx => hrec x (by simp [hx])
    have hsh1 : ∀ x ∈ rest, x.numChannels = x.channel_names.length :=
      fun x hx => hsh x (by simp [hx])
    have hg1 : gci + c.numChannels = channelCountOfCat .RAW (pre ++ [c]) := by
      rw [channelCountOfCat_append, hc, if_pos rfl, ← hg, hsh c (by simp)]
    have ih := writeContStreams_split_spec rest (pre ++ [c])
      (gci + c.numChannels) hrec1 hsh1 hg1
    subst hg
    simp only [writeContStreams, catExpectedIdsFrom, hc, if_true, ih]
    ring_nf

/-- **C4.** In split mode, whenever the conversion runs to completion (all
stream names recognized, shapes consistent with the channel-name lists),
the written block identifiers are exactly, stream by stream and channel by
channel, `range_start(category) + ordinal`, where the category comes from
the stream's processor identity and the ordinal is the channel's 0-based
global index within that category. -/
theorem dh_C4_block_ids (conts : List OEContinuous)
    (hne : conts ≠ [])
    (hrec : ∀ c ∈ conts, (oeProcessorContGroupMap c.stream_name).isSome)
    (hsh : ∀ c ∈ conts, c.numChannels = c.channel_names.length) :
    dhFromOeRecording (some conts) true = .ok (catExpectedIdsFrom [] conts) := by
  simp only [dhFromOeRecording]
  rw [if_neg (by simpa using hne)]
  exact writeContStreams_split_spec conts [] 0 hrec hsh rfl

/-- A two-channel PXIe-6341 stream for the C4 witness. -/
def exStreamA : OEContinuous := ⟨"PXIe-6341", ["CH1", "CH2"], 2⟩

/-- A one-channel Neuropix-PXI stream for the C4 witness. -/
def exStreamB : OEContinuous := ⟨"Neuropix-PXI", ["AP1"], 1⟩

/-- Witness for `dh_C4_block_ids` on a concrete two-stream recording: the
written identifiers evaluate to `[1, 2, 3]` (both streams are RAW, so the
second stream continues at ordinal 2 of the RAW range). -/
theorem dh_C4_witness :
    ([exStreamA, exStreamB] ≠ ([] : List OEContinuous))
    ∧ (∀ c ∈ [exStreamA, exStreamB], (oeProcessorContGroupMap c.stream_name).isSome)
    ∧ (∀ c ∈ [exStreamA, exStreamB], c.numChannels = c.channel_names.length)
    ∧ dhFromOeRecording (some [exStreamA, exStreamB]) true
        = .ok (catExpectedIdsFrom [] [exStreamA, exStreamB])
    ∧ catExpectedIdsFrom [] [exStreamA, exStreamB] = [1, 2, 3] := by
  refine ⟨by simp, by decide, by decide,
    dh_C4_block_ids _ (by simp) (by decide) (by decide), by decide⟩

/-- A RAW-category stream with 1601 channels: one more channel than the
1–1600 RAW identifier range can hold. -/
def overflowStream : OEContinuous := ⟨"PXIe-6341", List.replicate 1601 "CH", 1601⟩

set_option maxRecDepth 8192 in
/-- **C5 (code bug).** No capacity check exists: a recognized RAW stream
with 1601 channels converts *successfully*, writing identifiers `1..1601`
— including `1601`, which exceeds the RAW range end `1600` (and collides
with the ANALOG range) — instead of failing with a capacity error before
writing that block as the claim requires. -/
theorem dh_C5_capacity_unchecked :
    dhFromOeRecording (some [overflowStream]) true
        = .ok ((List.range 1601).map (fun j : ℕ => 1 + (j : ℤ)))
    ∧ (1601 : ℤ) ∈ (List.range 1601).map (fun j : ℕ => 1 + (j : ℤ))
    ∧ (contGroupRanges .RAW).2 < 1601 := by
  have hmem : ∀ c ∈ [overflowStream],
      (oeProcessorContGroupMap c.stream_name).isSome := by
    rintro c hc
    rw [List.mem_singleton] at hc
    subst hc
    rfl
  have hsh : ∀ c ∈ [overflowStream],
      c.numChannels = c.channel_names.length := by
    rintro c hc
    rw [List.mem_singleton] at hc
    subst hc
    show (1601 : ℕ) = overflowStream.channel_names.length
    rw [show overflowStream.channel_names = List.replicate 1601 "CH" from rfl,
      List.length_replicate]
  have h := writeContStreams_split_spec [overflowStream] [] 0 hmem hsh rfl
  have hlen : overflowStream.channel_names.length = 1601 := by
    rw [show overflowStream.channel_names = List.replicate 1601 "CH" from rfl,
      List.length_replicate]
  refine ⟨?_, ?_, by decide⟩
  · simp only [dhFromOeRecording]
    rw [if_neg (by decide), h]
    simp only [catExpectedIdsFrom]
    rw [show oeProcessorContGroupMap overflowStream.stream_name
        = some ContGroups.RAW from rfl]
    simp only [hlen, List.append_nil]
    apply congrArg
    apply List.map_congr_left
    intro a _
    show (contGroupRanges ContGroups.RAW).1
        + (channelCountOfCat ContGroups.RAW [] : ℤ) + (a : ℤ) = 1 + (a : ℤ)
    rw [show channelCountOfCat ContGroups.RAW [] = 0 from rfl]
    show (1 : ℤ) + (0 : ℕ) + a = 1 + a
    push_cast
    ring
  · exact List.mem_map.mpr ⟨1600, List.mem_range.mpr (by norm_num), by norm_num⟩

lemma writeContStreams_ne_noContinuousData :
    ∀ (split : Bool) (gci : ℕ) (conts : List OEContinuous),
      writeContStreams split gci conts ≠ .error .noContinuousData
  | _, _, [] => by simp [writeContStreams]
  | split, gci, c :: rest => by
    have ih := writeContStreams_ne_noContinuousData split
      (if split then gci + c.numChannels else gci) rest
    unfold writeContStreams
    cases holt : oeProcessorContGroupMap c.stream_name with
    | none => simp
    | some g =>
      simp only
      cases hres : writeContStreams split
          (if split then gci + c.numChannels else gci) rest with
      | error e =>
        rw [hres] at ih
        simp only
        intro hcon
        apply ih
        simp only [Except.error.injEq] at hcon ⊢
        exact hcon
      | ok more => simp

/-- **C8.** The conversion fails with the missing-data error exactly when
the continuous collection is absent (`None`) or empty — checked before any
channel processing, independent of the split configuration — and with at
least one continuous stream present this error is never raised (any later
failure is the distinct unknown-stream error). -/
theorem dh_C8_missing_data (continuous : Option (List OEContinuous))
    (split : Bool) :
    dhFromOeRecording continuous split = .error .noContinuousData ↔
      (continuous = none ∨ continuous = some []) := by
  cases continuous with
  | none => simp [dhFromOeRecording]
  | some conts =>
    cases conts with
    | nil => simp [dhFromOeRecording]
    | cons c rest =>
      simp only [dhFromOeRecording, List.length_cons]
      rw [if_neg (by simp)]
      constructor
      · intro h
        exact absurd h (writeContStreams_ne_noContinuousData split 0 (c :: rest))
      · rintro (h | h) <;> simp_all

/-! ## Decimation shape contract (C6)

`oecon.decimation.decimate_np_array` itself is not among the sources (only
`tests/test_decimation.py` is), so the operation is modelled from the
specification. -/

/-- The two filter families of the decimation engine (`filter_type` in
`tests/test_decimation.py`). -/
inductive FilterType
  | fir
  | iir
deriving DecidableEq, Repr

/-- Modelled from the spec: the FIR branch of the anti-aliasing low-pass
filter, a windowed moving average over the sample axis.  Only its
length-preservation matters to the claims; the numeric coefficients of the
real floating-point filter are outside the embedding. -/
def firFilter : ℚ → List ℚ → List ℚ
  | _, [] => []
  | prev, x :: xs => (prev + x) / 2 :: firFilter x xs

/-- Modelled from the spec: the IIR branch of the anti-aliasing low-pass
filter, a one-pole recursive average over the sample axis (a distinct,
equally length-preserving filter shape). -/
def iirFilter : ℚ → List ℚ → List ℚ
  | _, [] => []
  | acc, x :: xs =>
    let y := (acc + x) / 2
    y :: iirFilter y xs

/-- Modelled from the spec (§4.2): apply the selected low-pass filter along
the sample axis of one channel. -/
def lowpassFilterChannel (ftype : FilterType) (xs : List ℚ) : List ℚ :=
  match ftype, xs with
  | _, [] => []
  | .fir, x :: tl => firFilter x (x :: tl)
  | .iir, x :: tl => iirFilter 0 (x :: tl)

/-- Modelled from the spec: decimate one channel — low-pass filter, then
retain every `factor`-th sample so that the output length is
`floor (input length / factor)`. -/
def decimateChannel (downsampling_factor : ℕ) (ftype : FilterType)
    (xs : List ℚ) : List ℚ :=
  let filtered := lowpassFilterChannel ftype xs
  (List.range (xs.length / downsampling_factor)).map
    (fun i => filtered.getD (i * downsampling_factor) 0)

/-- Modelled from the spec: `decimate_np_array` on a 2-D samples × channels
array, filtering along the sample axis only.  The array is represented
channel-major: one inner list of samples per channel. -/
def decimateNpArray (downsampling_factor : ℕ) (ftype : FilterType)
    (data : List (List ℚ)) : List (List ℚ) :=
  data.map (decimateChannel downsampling_factor ftype)

lemma firFilter_length : ∀ (p : ℚ) (xs : List ℚ),
    (firFilter p xs).length = xs.length
  | _, [] => rfl
  | p, x :: xs => by simp [firFilter, firFilter_length x xs]

lemma iirFilter_length : ∀ (p : ℚ) (xs : List ℚ),
    (iirFilter p xs).length = xs.length
  | _, [] => rfl
  | p, x :: xs => by simp [iirFilter, iirFilter_length ((p + x) / 2) xs]

lemma lowpassFilterChannel_length (ftype : FilterType) (xs : List ℚ) :
    (lowpassFilterChannel ftype xs).length = xs.length := by
  cases ftype <;> cases xs <;>
    simp [lowpassFilterChannel, firFilter_length, iirFilter_length]

lemma decimateChannel_length (factor : ℕ) (ftype : FilterType) (xs : List ℚ) :
    (decimateChannel factor ftype xs).length = xs.length / factor := by
  simp [decimateChannel]

/-- **C6.** For every 2-D input and every integer factor ≥ 1, decimation
keeps the channel count unchanged and, independently of the filter type,
every channel's output sample count is `floor (input length / factor)`
(the filter acts along the sample axis only). -/
theorem decim_C6_output_shape (downsampling_factor : ℕ) (ftype : FilterType)
    (data : List (List ℚ)) (hfactor : 1 ≤ downsampling_factor) :
    (decimateNpArray downsampling_factor ftype data).length = data.length
    ∧ List.Forall₂ (fun dcol col => dcol.length = col.length / downsampling_factor)
        (decimateNpArray downsampling_factor ftype data) data := by
  constructor
  · simp [decimateNpArray]
  · induction data with
    | nil => exact List.Forall₂.nil
    | cons col rest ih =>
      exact List.Forall₂.cons (decimateChannel_length _ _ _) ih

/-- A concrete 2-channel, 7-samples-per-channel array for the C6 witness. -/
def exDecimData : List (List ℚ) := [[1, 2, 3, 4, 5, 6, 7], [0, 0, 1, 1, 0, 0, 1]]

/-- Witness for `decim_C6_output_shape` at factor 3 on `exDecimData`: the
channel count is preserved and both output channels have `7 / 3 = 2`
samples. -/
theorem decim_C6_witness :
    (1 ≤ 3)
    ∧ ((decimateNpArray 3 .fir exDecimData).length = exDecimData.length
    ∧ List.Forall₂ (fun dcol col => dcol.length = col.length / 3)
        (decimateNpArray 3 .fir exDecimData) exDecimData) :=
  ⟨by decide, decim_C6_output_shape 3 .fir exDecimData (by decide)⟩
